import Mathlib

/-!
Verification development for the two fetch-normalize-persist pipelines of this
repository: a Home Depot product-search script and an Amazon product-detail
script.  Python strings are modelled as `String` (or `List Char` where
character-level reasoning about stripping and splitting is needed), Python
dicts with a known key set as structures with `Option` fields (a `none` field
models an absent key), JSON-valued cells via the `JVal` inductive, and the
CSV file on disk as `Option (List (List Cell))` (`none` models a file that
does not exist; each written line is a list of cells).  Loops become
structural recursion; the observable side effects (HTTP requests, sleeps,
log prints) are recorded as an event trace.
-/

/-- A single CSV cell value: the scripts write strings, booleans and numbers. -/
inductive Cell where
  | str (s : String)
  | bool (b : Bool)
  | nat (n : Nat)
deriving DecidableEq

/-- Observable side effects of a pipeline run: an HTTP request (tagged with the
page number for the search pipeline, the retry-attempt index for the detail
pipeline), a sleep of a given duration, and a printed log message. -/
inductive Ev where
  | request (n : Nat)
  | sleep (d : Nat)
  | log (msg : String)
deriving DecidableEq

/-- The contents of an output CSV file: `none` when the file does not exist,
otherwise the list of lines written so far (header line included). -/
abbrev FileState := Option (List (List Cell))

/-! ## Home Depot search pipeline (homedepo_product-search.py) -/

/-- The nested `delivery` dict of a search result (`delivery.free`). -/
structure HDDelivery where
  free : Option Bool
deriving DecidableEq

/-- The nested `pickup` dict of a search result (`store_name`, `quantity`). -/
structure HDPickup where
  store_name : Option String
  quantity : Option Nat
deriving DecidableEq

/-- One entry of the `products` list of a search response; each field models
the presence/absence of the corresponding key in the product dict. -/
structure HDProduct where
  title : Option String
  link : Option String
  price : Option String
  unit : Option String
  rating : Option String
  reviews : Option String
  model_number : Option String
  brand : Option String
  delivery : Option HDDelivery
  pickup : Option HDPickup
deriving DecidableEq

/-- The `serpapi_pagination` dict: only its `next` key matters to the loop. -/
structure SerpPagination where
  next : Option String
deriving DecidableEq

/-- A parsed search-API response body: the optional `products` list and the
optional `serpapi_pagination` dict. -/
structure SearchResults where
  products : Option (List HDProduct)
  serpapi_pagination : Option SerpPagination
deriving DecidableEq

/-- The `fieldnames` list of `save_to_csv`. -/
def hd_fieldnames : List String :=
  ["keyword", "title", "link", "price", "unit", "rating", "reviews",
   "model_number", "brand", "delivery_free", "store_name", "in_stock_quantity"]

/-- The `product_data` dict built for one product inside `save_to_csv`,
translated field by field (defaults via `.get(..., default)` become `getD`;
the `isinstance(..., dict)` guards become the `match` on the `Option`). -/
def hd_product_data (keyword : String) (p : HDProduct) : List (String × Cell) :=
  let delivery_free : Bool :=
    match p.delivery with
    | some d => d.free.getD false
    | none => false
  let store_name : String :=
    match p.pickup with
    | some pk => pk.store_name.getD ""
    | none => ""
  let in_stock_quantity : Nat :=
    match p.pickup with
    | some pk => pk.quantity.getD 0
    | none => 0
  [("keyword", Cell.str keyword),
   ("title", Cell.str (p.title.getD "")),
   ("link", Cell.str (p.link.getD "")),
   ("price", Cell.str (p.price.getD "")),
   ("unit", Cell.str (p.unit.getD "")),
   ("rating", Cell.str (p.rating.getD "")),
   ("reviews", Cell.str (p.reviews.getD "")),
   ("model_number", Cell.str (p.model_number.getD "")),
   ("brand", Cell.str (p.brand.getD "")),
   ("delivery_free", Cell.bool delivery_free),
   ("store_name", Cell.str store_name),
   ("in_stock_quantity", Cell.nat in_stock_quantity)]

/-- `save_to_csv(results, keyword, output_file, append)`: returns the number
of products written and the new file contents.  With no `products` key or an
empty list it returns `0` without touching the file.  Otherwise it checks
`os.path.isfile` (modelled by `fs.isSome`), opens in `'a'` or `'w'` mode
(keeping or truncating prior contents), writes the header when
`not file_exists or not append`, and appends one formatted row per product. -/
def save_to_csv (results : SearchResults) (keyword : String)
    (fs : FileState) (append : Bool) : Nat × FileState :=
  match results.products with
  | none => (0, fs)
  | some products =>
    if products.isEmpty then (0, fs)
    else
      let file_exists := fs.isSome
      let prior : List (List Cell) := if append then fs.getD [] else []
      let headerPart : List (List Cell) :=
        if !file_exists || !append then [hd_fieldnames.map Cell.str] else []
      let dataRows := products.map (fun p => (hd_product_data keyword p).map Prod.snd)
      (products.length, some (prior ++ headerPart ++ dataRows))

/-- The value `save_to_csv` returns for a given response, independent of the
file state: the product count when the list is present and non-empty, else 0. -/
def productsCount (r : SearchResults) : Nat :=
  match r.products with
  | none => 0
  | some l => if l.isEmpty then 0 else l.length

/-- The break condition of the pagination loop:
`"serpapi_pagination" not in results or "next" not in results["serpapi_pagination"]
or products_count == 0`. -/
def shouldStop (r : SearchResults) (products_count : Nat) : Bool :=
  (match r.serpapi_pagination with
   | none => true
   | some pg => pg.next.isNone) || products_count == 0

/-- `shouldStop` evaluated on a page's response with the count `save_to_csv`
would return for it. -/
def stopAt (resp : Nat → SearchResults) (page : Nat) : Bool :=
  shouldStop (resp page) (productsCount (resp page))

/-- `max_pages = 3` in `main`. -/
def max_pages : Nat := 3

/-- The outcome of the per-keyword pagination loop: event trace, list of
pages fetched, the `first_write` flag after the loop, the file contents, and
the keyword's `total_products` tally. -/
structure KwState where
  events : List Ev
  pages : List Nat
  first_write : Bool
  fs : FileState
  total : Nat
deriving DecidableEq

/-- The `for page in range(1, max_pages + 1)` loop of `main` for one keyword:
fetch the page (a `request` event), call `save_to_csv` with
`append = not first_write`, clear `first_write`, accumulate the count, and
either break (when `shouldStop`) or sleep 1 and continue with the next page.
`fuel` is the number of loop iterations remaining. -/
def kwLoop (resp : Nat → SearchResults) (keyword : String) :
    Nat → Nat → Bool → FileState → KwState
  | _, 0, first_write, fs => ⟨[], [], first_write, fs, 0⟩
  | page, fuel+1, first_write, fs =>
    let results := resp page
    let saved := save_to_csv results keyword fs (!first_write)
    let products_count := saved.1
    if shouldStop results products_count then
      ⟨[Ev.request page], [page], false, saved.2, products_count⟩
    else
      let rest := kwLoop resp keyword (page+1) fuel false saved.2
      ⟨Ev.request page :: Ev.sleep 1 :: rest.events, page :: rest.pages,
       rest.first_write, rest.fs, products_count + rest.total⟩

/-- The outer loop of the search `main`: one `kwLoop` per keyword, threading
the `first_write` flag and the file state across keywords. -/
def search_main (resp : String → Nat → SearchResults) :
    List String → Bool → FileState → List Ev × FileState
  | [], _, fs => ([], fs)
  | kw :: rest, first_write, fs =>
    let r := kwLoop (resp kw) kw 1 max_pages first_write fs
    let tail := search_main resp rest r.first_write r.fs
    (r.events ++ tail.1, tail.2)

/-- Python `str.strip()` on a string modelled as a character list: drop
leading and trailing whitespace. -/
def pyStrip (s : List Char) : List Char :=
  ((s.dropWhile Char.isWhitespace).reverse.dropWhile Char.isWhitespace).reverse

/-- `read_keywords`: `[line.strip() for line in file if line.strip()]` over
the lines of the keyword file. -/
def read_keywords (lines : List (List Char)) : List (List Char) :=
  (lines.filter (fun line => !(pyStrip line).isEmpty)).map pyStrip

/-- Python `str.split()` with no separator: the maximal runs of
non-whitespace characters, in order, empty runs discarded. -/
def pySplitWs (s : List Char) : List (List Char) :=
  match s with
  | [] => []
  | c :: rest =>
    if c.isWhitespace then pySplitWs rest
    else (c :: rest.takeWhile (fun d => !d.isWhitespace)) ::
         pySplitWs (rest.dropWhile (fun d => !d.isWhitespace))
termination_by s.length
decreasing_by
  · simp only [List.length_cons]
    omega
  · have h := List.IsSuffix.length_le (List.dropWhile_suffix (l := rest) (fun d => !d.isWhitespace))
    simp only [List.length_cons]
    omega

/-! ## Amazon product-detail pipeline (amazon_product_detail.py) -/

/-- `LIMIT = 3`: test-mode cap on the number of ASINs processed. -/
def LIMIT : Nat := 3

/-- `MAX_RETRIES = 1`. -/
def MAX_RETRIES : Nat := 1

/-- `REQUEST_DELAY = 1` (seconds). -/
def REQUEST_DELAY : Nat := 1

/-- `CSV_FIELDS`: the fixed 18-column output schema. -/
def CSV_FIELDS : List String :=
  ["asin", "name", "brand", "url", "price", "price_reduced", "rating",
   "review_count", "availability", "category", "bullet_points", "description",
   "product_dimensions", "product_specifications", "product_weight",
   "main_image_url", "whats_in_box", "variant_data"]

/-- `truncate_text(text, max_length)`: empty stays empty, short text is
returned unchanged, long text is cut to its first `max_length` characters
with `"..."` appended (Python slicing modelled on the character list). -/
def truncate_text (text : String) (max_length : Nat) : String :=
  if text = "" then ""
  else if text.length ≤ max_length then text
  else String.mk (text.toList.take max_length) ++ "..."

/-- A JSON value, as handed to `json.dumps`. -/
inductive JVal where
  | str (s : String)
  | bool (b : Bool)
  | num (n : Nat)
  | arr (xs : List JVal)
  | obj (fields : List (String × JVal))

/-- Escaping of one character inside a JSON string literal (the backslash and
double-quote cases; the values the scripts serialize contain neither). -/
def jsonEscapeChar (c : Char) : String :=
  if c = '\\' then "\\\\"
  else if c = '"' then "\\\""
  else String.singleton c

/-- Escaping of a JSON string literal body. -/
def jsonEscape (s : String) : String :=
  String.join (s.toList.map jsonEscapeChar)

mutual

/-- `json.dumps` with its default separators (`", "` and `": "`). -/
def jsonDumps : JVal → String
  | JVal.str s => "\"" ++ jsonEscape s ++ "\""
  | JVal.bool true => "true"
  | JVal.bool false => "false"
  | JVal.num n => toString n
  | JVal.arr xs => "[" ++ jsonDumpsList xs ++ "]"
  | JVal.obj fields => "\x7b" ++ jsonDumpsObj fields ++ "\x7d"

/-- Comma-joined serialization of a JSON array's elements. -/
def jsonDumpsList : List JVal → String
  | [] => ""
  | [x] => jsonDumps x
  | x :: xs => jsonDumps x ++ ", " ++ jsonDumpsList xs

/-- Comma-joined serialization of a JSON object's key/value pairs. -/
def jsonDumpsObj : List (String × JVal) → String
  | [] => ""
  | [kv] => "\"" ++ jsonEscape kv.1 ++ "\": " ++ jsonDumps kv.2
  | kv :: kvs => "\"" ++ jsonEscape kv.1 ++ "\": " ++ jsonDumps kv.2 ++ ", " ++ jsonDumpsObj kvs

end

/-- One entry of the product's `details_table`: a dict that may carry a
`name` and a `value` key. -/
structure DetailsItem where
  name : Option String
  value : Option String
deriving DecidableEq

/-- The JSON form of a `details_table` entry (only the keys it carries). -/
def detailsItemJson (item : DetailsItem) : JVal :=
  JVal.obj
    ((match item.name with
      | some n => [("name", JVal.str n)]
      | none => []) ++
     (match item.value with
      | some v => [("value", JVal.str v)]
      | none => []))

/-- One entry of the product's `categories` list. -/
structure Category where
  name : Option String
deriving DecidableEq

/-- The `detail` payload of a successful response; each `Option` field models
the presence/absence of the corresponding key in the product dict. -/
structure AmzProduct where
  name : Option String
  brand : Option String
  url : Option String
  price : Option String
  price_reduced : Option String
  rating : Option String
  total_ratings : Option String
  in_stock : Option Bool
  categories : Option (List Category)
  features : Option (List String)
  description : Option String
  details_table : Option (List DetailsItem)
  main_image : Option String
  whats_in_box : Option (List String)
  variants : Option JVal

/-- A parsed detail-API response body: a `detail` payload when the call
succeeded, an optional `message`, and an optional `remaining_credits`. -/
structure ApiResponse where
  detail : Option AmzProduct
  message : Option String
  remaining_credits : Option Nat

/-- `next((item.get('value', '') for item in table if item.get('name') == key), '')`:
the `value` (defaulted to `""`) of the first table entry whose `name` equals
`key`, or `""` when there is none. -/
def firstTableValue (table : List DetailsItem) (key : String) : String :=
  match table.find? (fun item => item.name == some key) with
  | some item => item.value.getD ""
  | none => ""

/-- The `csv_row` dict of `fetch_product_data`, translated field by field
from the source (defaults via `.get` become `getD`; `'; '.join` becomes
`String.intercalate "; "`; `json.dumps` becomes `jsonDumps`). -/
def csv_row (asin : String) (product : AmzProduct) : List (String × Cell) :=
  [("asin", Cell.str asin),
   ("name", Cell.str (product.name.getD "")),
   ("brand", Cell.str (product.brand.getD "")),
   ("url", Cell.str (product.url.getD "")),
   ("price", Cell.str (product.price.getD "")),
   ("price_reduced", Cell.str (product.price_reduced.getD "")),
   ("rating", Cell.str (product.rating.getD "")),
   ("review_count", Cell.str (product.total_ratings.getD "")),
   ("availability", Cell.bool (product.in_stock.getD true)),
   ("category", Cell.str (String.intercalate "; "
      ((product.categories.getD []).map (fun cat => cat.name.getD "")))),
   ("bullet_points", Cell.str (String.intercalate "; " (product.features.getD []))),
   ("description", Cell.str (truncate_text (product.description.getD "") 1000)),
   ("product_dimensions", Cell.str (jsonDumps (JVal.str
      (firstTableValue (product.details_table.getD []) "Product Dimensions")))),
   ("product_specifications", Cell.str
      (match product.details_table with
       | some table => jsonDumps (JVal.arr (table.map detailsItemJson))
       | none => jsonDumps (JVal.obj []))),
   ("product_weight", Cell.str
      (firstTableValue (product.details_table.getD []) "Item Weight")),
   ("main_image_url", Cell.str (product.main_image.getD "")),
   ("whats_in_box", Cell.str (String.intercalate "; " (product.whats_in_box.getD []))),
   ("variant_data", Cell.str (jsonDumps (product.variants.getD (JVal.obj []))))]

/-- The `for attempt in range(MAX_RETRIES)` loop of `fetch_product_data`.
`respAt n` is the outcome of the HTTP request of attempt `n`: `Except.error`
models an exception from `requests.get`/`.json()` (caught by the `except`
branch), `Except.ok` a parsed body.  A body with a `detail` key returns the
`csv_row` (extended with the body's `remaining_credits` when present); an
error-shaped body logs `data.get('message', '未知错误')` and falls through.
Between attempts (never on the last) the loop sleeps
`REQUEST_DELAY * (attempt + 1)`.  Exhausted attempts return `none`. -/
def fetchLoop (respAt : Nat → Except String ApiResponse) (asin : String) :
    Nat → Nat → List Ev × Option (List (String × Cell))
  | _, 0 => ([], none)
  | attempt, fuel+1 =>
    let retrySleep : List Ev :=
      if attempt < MAX_RETRIES - 1 then [Ev.sleep (REQUEST_DELAY * (attempt + 1))] else []
    match respAt attempt with
    | Except.error e =>
      let rest := fetchLoop respAt asin (attempt+1) fuel
      (Ev.request attempt :: Ev.log e :: retrySleep ++ rest.1, rest.2)
    | Except.ok data =>
      match data.detail with
      | some product =>
        let row := csv_row asin product
        let row :=
          match data.remaining_credits with
          | some c => row ++ [("remaining_credits", Cell.nat c)]
          | none => row
        ([Ev.request attempt], some row)
      | none =>
        let rest := fetchLoop respAt asin (attempt+1) fuel
        (Ev.request attempt :: Ev.log (data.message.getD "未知错误") :: retrySleep ++ rest.1,
         rest.2)

/-- `fetch_product_data(asin, api_key)`: the retry loop started at attempt 0
with `MAX_RETRIES` attempts available. -/
def fetch_product_data (respAt : Nat → Except String ApiResponse) (asin : String) :
    List Ev × Option (List (String × Cell)) :=
  fetchLoop respAt asin 0 MAX_RETRIES

/-- The accumulator of the detail `main` loop: `success_count`,
`failed_asins`, the last seen `remaining_credits` cell, and the data rows
written to the CSV so far. -/
structure RunState where
  success_count : Nat
  failed_asins : List String
  remaining_credits : Option Cell
  rows : List (List (String × Cell))
deriving DecidableEq

/-- The state all counters start from. -/
def initState : RunState := ⟨0, [], none, []⟩

/-- The `for i, asin in enumerate(asin_list)` loop of the detail `main`: fetch
the product; on success pull out and delete a `remaining_credits` entry if the
row carries one, write the row, and bump `success_count`; on failure append
the ASIN to `failed_asins`.  Every iteration ends with
`time.sleep(REQUEST_DELAY)`. -/
def detailLoop (respOf : String → Nat → Except String ApiResponse) :
    List String → RunState → List Ev × RunState
  | [], st => ([], st)
  | asin :: rest, st =>
    let fr := fetch_product_data (respOf asin) asin
    let st' :=
      match fr.2 with
      | some row =>
        let hasRC := row.any (fun p => p.1 == "remaining_credits")
        let rc :=
          if hasRC then (row.find? (fun p => p.1 == "remaining_credits")).map Prod.snd
          else st.remaining_credits
        let row' :=
          if hasRC then row.filter (fun p => p.1 != "remaining_credits") else row
        { st with
            success_count := st.success_count + 1
            remaining_credits := rc
            rows := st.rows ++ [row'] }
      | none => { st with failed_asins := st.failed_asins ++ [asin] }
    let tail := detailLoop respOf rest st'
    (fr.1 ++ [Ev.sleep REQUEST_DELAY] ++ tail.1, tail.2)

/-- `if LIMIT > 0: asin_list = asin_list[:LIMIT]`. -/
def applyLimit (limit : Nat) (asin_list : List String) : List String :=
  if 0 < limit then asin_list.take limit else asin_list

/-- What the detail `main` produces: the event trace, the header line written
by `writer.writeheader()` (the `DictWriter` field names), and the final
counters and rows. -/
structure DetailOutput where
  events : List Ev
  header : List String
  state : RunState

/-- The detail `main` after the input file is read: cap the ASIN list with
`LIMIT`, create the CSV with its `CSV_FIELDS` header, and run the loop. -/
def detail_main (respOf : String → Nat → Except String ApiResponse)
    (asin_list : List String) : DetailOutput :=
  let limited := applyLimit LIMIT asin_list
  let r := detailLoop respOf limited initState
  ⟨r.1, CSV_FIELDS, r.2⟩

/-- The detail pipeline's input reader:
`f.read().strip().split()` followed by
`[asin.strip() for asin in asin_list if asin.strip()]`. -/
def readAsinList (content : List Char) : List (List Char) :=
  let asin_list := pySplitWs (pyStrip content)
  (asin_list.filter (fun a => !(pyStrip a).isEmpty)).map pyStrip

/-! ## Concrete fixtures used by counterexamples and witnesses -/

/-- A search product carrying only a title. -/
def hdProductEx : HDProduct :=
  ⟨some "Claw Hammer", none, none, none, none, none, none, none, none, none⟩

/-- A search response with one product and no pagination block. -/
def resultsOne : SearchResults := ⟨some [hdProductEx], none⟩

/-- A search response whose `products` list is present but empty. -/
def resultsEmptyPage : SearchResults := ⟨some [], none⟩

/-- The header line `save_to_csv` writes. -/
def hdHeaderLine : List Cell := hd_fieldnames.map Cell.str

/-- The data line `save_to_csv` writes for `hdProductEx` under keyword `"k2"`. -/
def hdDataLineEx : List Cell := (hd_product_data "k2" hdProductEx).map Prod.snd

/-- A two-keyword run: keyword `"k1"` finds nothing, keyword `"k2"` finds one
product, and no page carries a pagination block. -/
def respC1 : String → Nat → SearchResults :=
  fun kw _ => if kw = "k2" then resultsOne else resultsEmptyPage

/-- The detail payload with every key absent. -/
def emptyAmzProduct : AmzProduct :=
  ⟨none, none, none, none, none, none, none, none, none, none, none, none, none, none, none⟩

/-- The cell a given `csv_row` field ends up with. -/
def rowCell (asin : String) (p : AmzProduct) (field : String) : Option Cell :=
  ((csv_row asin p).find? (fun q => q.1 == field)).map Prod.snd

/-- Recognizer for sleep events. -/
def isSleepEv : Ev → Bool
  | Ev.sleep _ => true
  | _ => false

/-- Recognizer for request events. -/
def isRequestEv : Ev → Bool
  | Ev.request _ => true
  | _ => false

/-- How many events of a trace satisfy a recognizer. -/
def countEv (p : Ev → Bool) (l : List Ev) : Nat := (l.filter p).length

/-- Checks that every request event of a trace is followed — before any
further request, and before the trace ends — by a sleep of exactly `d` time
units; log events may come between a request and its delay.  The `pending`
flag records a request whose delay has not yet been seen, so a trace passes
the check (started with `pending = false`) only if the delay also follows
the last request. -/
def delayedAfterEachRequest (d : Nat) : List Ev → Bool → Bool
  | [], pending => !pending
  | Ev.request _ :: rest, pending => !pending && delayedAfterEachRequest d rest true
  | Ev.sleep dur :: rest, pending =>
    if pending then (dur == d) && delayedAfterEachRequest d rest false
    else delayedAfterEachRequest d rest false
  | Ev.log _ :: rest, pending => delayedAfterEachRequest d rest pending

/-- A keyword whose page 1 has one product and a next-page link, and whose
page 2 is a page with zero products (still with a next-page link). -/
def respC4 : Nat → SearchResults :=
  fun page =>
    if page = 1 then ⟨some [hdProductEx], some ⟨some "nextlink"⟩⟩
    else ⟨some [], some ⟨some "nextlink"⟩⟩

/-- A keyword all of whose pages come back with no `products` key and no
pagination block. -/
def respC6 : Nat → SearchResults := fun _ => ⟨none, none⟩

/-- A detail response carrying the error shape (no `detail` payload) and a
message. -/
def errResponse : ApiResponse := ⟨none, some "Invalid API key", none⟩

/-- A fetcher that always gets `errResponse` back. -/
def respC5 : String → Nat → Except String ApiResponse := fun _ _ => Except.ok errResponse

/-- A detail response with an all-absent payload and a `remaining_credits`
counter. -/
def okResponse : ApiResponse := ⟨some emptyAmzProduct, none, some 42⟩

/-- A fetcher that always gets `okResponse` back. -/
def respC7 : String → Nat → Except String ApiResponse := fun _ _ => Except.ok okResponse

/-! ## Theorems -/

/-- C3: for every description string and the character budget 1000,
`truncate_text` returns the first 1000 characters followed by the
three-character marker `"..."` when the input is longer than 1000
characters, and the input unchanged otherwise. -/
theorem c3_truncate (s : String) :
    (truncate_text s 1000).toList =
      if 1000 < s.toList.length then s.toList.take 1000 ++ ['.', '.', '.']
      else s.toList := by
  unfold truncate_text
  by_cases h0 : s = ""
  · subst h0
    simp
  · rw [if_neg h0]
    have hlen : s.toList.length = s.length := rfl
    by_cases hle : s.length ≤ 1000
    · rw [if_pos hle, if_neg (by omega)]
    · rw [if_neg hle, if_pos (by omega)]
      show (String.mk (s.toList.take 1000) ++ "...").data = s.toList.take 1000 ++ ['.', '.', '.']
      rw [String.data_append]

/-- C9: for every key list and every positive limit `K` the capped list is
exactly the first `min K total` keys in order, and a zero limit keeps the
full list. -/
theorem c9_limit (K : Nat) (l : List String) :
    (0 < K → applyLimit K l = l.take K ∧ (applyLimit K l).length = min K l.length) ∧
    (K = 0 → applyLimit K l = l) := by
  constructor
  · intro h
    rw [applyLimit, if_pos h]
    exact ⟨rfl, List.length_take K l⟩
  · intro h
    subst h
    rfl

/-- Witness for C9 at `K = 2` over a three-element list. -/
theorem c9_limit_witness :
    applyLimit 2 ["a", "b", "c"] = ["a", "b"] ∧
    (applyLimit 2 ["a", "b", "c"]).length = min 2 3 := by
  have h := (c9_limit 2 ["a", "b", "c"]).1 (by decide)
  exact ⟨h.1.trans rfl, h.2⟩

/-- C10: a save call whose results have no `products` key or an empty
products list returns 0 and leaves the output file exactly as it was —
no creation, truncation, header write or append — whatever the flag. -/
theorem c10_no_products (r : SearchResults) (keyword : String) (fs : FileState)
    (append : Bool) (h : r.products = none ∨ r.products = some []) :
    save_to_csv r keyword fs append = (0, fs) := by
  rcases h with h | h <;> simp [save_to_csv, h]

/-- Witness for C10: a missing `products` key on an existing file. -/
theorem c10_no_products_witness :
    save_to_csv ⟨none, none⟩ "kw" (some [[Cell.str "x"]]) true = (0, some [[Cell.str "x"]]) :=
  c10_no_products _ _ _ _ (Or.inl rfl)

/-- C1 counterexample: the header decision of `save_to_csv` is re-derived
from file existence, not controlled solely by the first-write flag.  The
first save of a run writes nothing when the page has no products (first
conjunct); an append-flagged save (`append = true`, so not the run's first
write) writes the header when the file does not exist (second conjunct) but
not when it exists (third conjunct) — same flag, different header behavior;
and in a full two-keyword run the header is established by the second,
append-flagged save, not by the first save of the run (fourth conjunct). -/
theorem c1_counterexample :
    save_to_csv resultsEmptyPage "k1" none false = (0, none) ∧
    (save_to_csv resultsOne "k2" none true).2 = some [hdHeaderLine, hdDataLineEx] ∧
    (save_to_csv resultsOne "k2" (some [hdDataLineEx]) true).2 =
      some [hdDataLineEx, hdDataLineEx] ∧
    (search_main respC1 ["k1", "k2"] true none).2 = some [hdHeaderLine, hdDataLineEx] := by
  decide

/-- C1 amended: on a page with a non-empty products list, `save_to_csv`
keeps the prior contents in append mode and truncates otherwise, writes the
header exactly when the file does not already exist or the call is not in
append mode (the run's first write), then appends one row per product. -/
theorem c1_amended (results : SearchResults) (keyword : String) (fs : FileState)
    (append : Bool) (products : List HDProduct)
    (hp : results.products = some products) (hne : products ≠ []) :
    save_to_csv results keyword fs append =
      (products.length,
       some ((if append then fs.getD [] else []) ++
             (if !fs.isSome || !append then [hd_fieldnames.map Cell.str] else []) ++
             products.map (fun p => (hd_product_data keyword p).map Prod.snd))) := by
  obtain ⟨prods, pag⟩ := results
  simp only at hp
  subst hp
  have hne' : products.isEmpty = false := by
    cases products with
    | nil => exact absurd rfl hne
    | cons a t => rfl
  simp [save_to_csv, hne']

/-- Witness for C1's amended statement: an append-flagged call on a missing
file writes header plus data row. -/
theorem c1_amended_witness :
    save_to_csv resultsOne "k2" none true = (1, some [hdHeaderLine, hdDataLineEx]) := by
  have h := c1_amended resultsOne "k2" none true [hdProductEx] rfl (by decide)
  exact h.trans (by decide)

/-- C2 counterexample: for a successful response whose payload carries no
`in_stock` key, the `availability` field of the output row is the boolean
`true` — not an empty-string, empty-list or empty-structure default (and not
`false` either). -/
theorem c2_counterexample :
    rowCell "B00EXAMPLE" emptyAmzProduct "availability" = some (Cell.bool true) ∧
    Cell.bool true ≠ Cell.bool false ∧ Cell.bool true ≠ Cell.str "" := by
  decide

/-- C2 amended: in the Row Normalizer every output field derived from a
source field that is absent from the payload gets its empty default —
empty string for the scalar and joined-list fields, the JSON serialization
of the empty string or empty structure for the JSON-valued fields — with the
single exception of `availability`, which defaults to the boolean `true`. -/
theorem c2_amended (asin : String) (p : AmzProduct) :
    (p.name = none → rowCell asin p "name" = some (Cell.str "")) ∧
    (p.brand = none → rowCell asin p "brand" = some (Cell.str "")) ∧
    (p.url = none → rowCell asin p "url" = some (Cell.str "")) ∧
    (p.price = none → rowCell asin p "price" = some (Cell.str "")) ∧
    (p.price_reduced = none → rowCell asin p "price_reduced" = some (Cell.str "")) ∧
    (p.rating = none → rowCell asin p "rating" = some (Cell.str "")) ∧
    (p.total_ratings = none → rowCell asin p "review_count" = some (Cell.str "")) ∧
    (p.in_stock = none → rowCell asin p "availability" = some (Cell.bool true)) ∧
    (p.categories = none → rowCell asin p "category" = some (Cell.str "")) ∧
    (p.features = none → rowCell asin p "bullet_points" = some (Cell.str "")) ∧
    (p.description = none → rowCell asin p "description" = some (Cell.str "")) ∧
    (p.details_table = none →
       rowCell asin p "product_dimensions" = some (Cell.str "\"\"") ∧
       rowCell asin p "product_specifications" = some (Cell.str "\x7b\x7d") ∧
       rowCell asin p "product_weight" = some (Cell.str "")) ∧
    (p.main_image = none → rowCell asin p "main_image_url" = some (Cell.str "")) ∧
    (p.whats_in_box = none → rowCell asin p "whats_in_box" = some (Cell.str "")) ∧
    (p.variants = none → rowCell asin p "variant_data" = some (Cell.str "\x7b\x7d")) := by
  refine ⟨fun h => ?_, fun h => ?_, fun h => ?_, fun h => ?_, fun h => ?_, fun h => ?_,
    fun h => ?_, fun h => ?_, fun h => ?_, fun h => ?_, fun h => ?_, fun h => ?_,
    fun h => ?_, fun h => ?_, fun h => ?_⟩ <;>
    simp [rowCell, csv_row, h, truncate_text, firstTableValue, jsonDumps, jsonEscape,
      jsonDumpsObj, String.join] <;>
    rfl

/-- Witness for C2's amended statement at the all-absent payload. -/
theorem c2_amended_witness :
    rowCell "B0" emptyAmzProduct "name" = some (Cell.str "") ∧
    rowCell "B0" emptyAmzProduct "brand" = some (Cell.str "") ∧
    rowCell "B0" emptyAmzProduct "url" = some (Cell.str "") ∧
    rowCell "B0" emptyAmzProduct "price" = some (Cell.str "") ∧
    rowCell "B0" emptyAmzProduct "price_reduced" = some (Cell.str "") ∧
    rowCell "B0" emptyAmzProduct "rating" = some (Cell.str "") ∧
    rowCell "B0" emptyAmzProduct "review_count" = some (Cell.str "") ∧
    rowCell "B0" emptyAmzProduct "availability" = some (Cell.bool true) ∧
    rowCell "B0" emptyAmzProduct "category" = some (Cell.str "") ∧
    rowCell "B0" emptyAmzProduct "bullet_points" = some (Cell.str "") ∧
    rowCell "B0" emptyAmzProduct "description" = some (Cell.str "") ∧
    (rowCell "B0" emptyAmzProduct "product_dimensions" = some (Cell.str "\"\"") ∧
     rowCell "B0" emptyAmzProduct "product_specifications" = some (Cell.str "\x7b\x7d") ∧
     rowCell "B0" emptyAmzProduct "product_weight" = some (Cell.str "")) ∧
    rowCell "B0" emptyAmzProduct "main_image_url" = some (Cell.str "") ∧
    rowCell "B0" emptyAmzProduct "whats_in_box" = some (Cell.str "") ∧
    rowCell "B0" emptyAmzProduct "variant_data" = some (Cell.str "\x7b\x7d") := by
  obtain ⟨h1, h2, h3, h4, h5, h6, h7, h8, h9, h10, h11, h12, h13, h14, h15⟩ :=
    c2_amended "B0" emptyAmzProduct
  exact ⟨h1 rfl, h2 rfl, h3 rfl, h4 rfl, h5 rfl, h6 rfl, h7 rfl, h8 rfl, h9 rfl,
    h10 rfl, h11 rfl, h12 rfl, h13 rfl, h14 rfl, h15 rfl⟩

/-- The count `save_to_csv` returns does not depend on the file state or the
append flag. -/
theorem save_to_csv_fst (r : SearchResults) (keyword : String) (fs : FileState)
    (append : Bool) : (save_to_csv r keyword fs append).1 = productsCount r := by
  obtain ⟨prods, pag⟩ := r
  cases prods with
  | none => rfl
  | some l =>
    cases l with
    | nil => rfl
    | cons a t => rfl

/-- The pages the per-keyword loop fetches, characterized by the stop
condition of pages 1 and 2. -/
theorem kwLoop_pages_char (resp : Nat → SearchResults) (keyword : String)
    (fw : Bool) (fs : FileState) :
    (kwLoop resp keyword 1 max_pages fw fs).pages =
      if stopAt resp 1 then [1] else if stopAt resp 2 then [1, 2] else [1, 2, 3] := by
  cases h1 : stopAt resp 1 <;> cases h2 : stopAt resp 2 <;>
    simp only [stopAt] at h1 h2 <;>
    simp [kwLoop, max_pages, save_to_csv_fst, stopAt, h1, h2] <;>
    split <;> rfl

/-- C4: for every keyword the pagination loop fetches pages starting at 1 in
increasing order, never beyond page 3, and stops at the first page whose
response triggers the stop condition (zero product rows or missing
next-page indicator): no later page is ever fetched. -/
theorem c4_pagination (resp : Nat → SearchResults) (keyword : String)
    (fw : Bool) (fs : FileState) :
    ((kwLoop resp keyword 1 max_pages fw fs).pages =
      if stopAt resp 1 then [1] else if stopAt resp 2 then [1, 2] else [1, 2, 3]) ∧
    (∀ p, p ∈ (kwLoop resp keyword 1 max_pages fw fs).pages → 1 ≤ p ∧ p ≤ 3) ∧
    (∀ p, p ∈ (kwLoop resp keyword 1 max_pages fw fs).pages → stopAt resp p = true →
      ∀ q, q ∈ (kwLoop resp keyword 1 max_pages fw fs).pages → q ≤ p) := by
  refine ⟨kwLoop_pages_char resp keyword fw fs, ?_, ?_⟩
  · intro p hp
    rw [kwLoop_pages_char] at hp
    split at hp
    · simp at hp
      omega
    · split at hp
      · simp at hp
        rcases hp with h | h <;> omega
      · simp at hp
        rcases hp with h | h | h <;> omega
  · intro p hp hstop q hq
    rw [kwLoop_pages_char] at hp hq
    by_cases h1 : stopAt resp 1 = true
    · rw [if_pos h1] at hp hq
      simp at hp hq
      omega
    · rw [if_neg h1] at hp hq
      by_cases h2 : stopAt resp 2 = true
      · rw [if_pos h2] at hp hq
        simp at hp hq
        rcases hp with rfl | rfl
        · exact absurd hstop h1
        · rcases hq with rfl | rfl <;> omega
      · rw [if_neg h2] at hp hq
        simp at hp hq
        rcases hp with rfl | rfl | rfl
        · exact absurd hstop h1
        · exact absurd hstop h2
        · rcases hq with rfl | rfl | rfl <;> omega

/-- Witness for C4: a keyword whose page 2 comes back with zero products
fetches exactly pages 1 and 2. -/
theorem c4_pagination_witness :
    (kwLoop respC4 "drill" 1 max_pages true none).pages = [1, 2] ∧
    (1 ≤ 2 ∧ 2 ≤ 3) ∧ 1 ≤ 2 := by
  have h := c4_pagination respC4 "drill" true none
  exact ⟨h.1.trans (by decide), h.2.1 2 (by decide),
    h.2.2 2 (by decide) (by decide) 1 (by decide)⟩

/-- The event trace of the per-keyword pagination loop: a 1-unit sleep
follows a page's request exactly when that page does not trigger the stop
condition — in particular page 3's request is still followed by the sleep
when the page cap, not the stop condition, ends the loop. -/
theorem kwLoop_events_char (resp : Nat → SearchResults) (keyword : String)
    (fw : Bool) (fs : FileState) :
    (kwLoop resp keyword 1 max_pages fw fs).events =
      if stopAt resp 1 then [Ev.request 1]
      else Ev.request 1 :: Ev.sleep 1 ::
        (if stopAt resp 2 then [Ev.request 2]
         else Ev.request 2 :: Ev.sleep 1 ::
           (if stopAt resp 3 then [Ev.request 3] else [Ev.request 3, Ev.sleep 1])) := by
  cases h1 : stopAt resp 1 <;> cases h2 : stopAt resp 2 <;> cases h3 : stopAt resp 3 <;>
    simp only [stopAt] at h1 h2 h3 <;>
    simp [kwLoop, max_pages, save_to_csv_fst, stopAt, h1, h2, h3]

/-- With `MAX_RETRIES = 1` a fetch issues exactly one request (attempt 0) and
never sleeps: its trace is the request alone on success, or the request
followed by one log message on an exception or an error-shaped body. -/
theorem fetch_events_shape (respAt : Nat → Except String ApiResponse) (asin : String) :
    (fetch_product_data respAt asin).1 = [Ev.request 0] ∨
    ∃ m, (fetch_product_data respAt asin).1 = [Ev.request 0, Ev.log m] := by
  cases hr : respAt 0 with
  | error e =>
    exact Or.inr ⟨e, by simp [fetch_product_data, MAX_RETRIES, fetchLoop, hr]⟩
  | ok data =>
    cases hd : data.detail with
    | some product =>
      exact Or.inl (by simp [fetch_product_data, MAX_RETRIES, fetchLoop, hr, hd])
    | none =>
      exact Or.inr ⟨data.message.getD "未知错误",
        by simp [fetch_product_data, MAX_RETRIES, fetchLoop, hr, hd]⟩

/-- Event counting distributes over trace concatenation. -/
theorem countEv_append (p : Ev → Bool) (a b : List Ev) :
    countEv p (a ++ b) = countEv p a + countEv p b := by
  simp [countEv, List.filter_append]

/-- The detail loop issues exactly one request per ASIN. -/
theorem detail_request_count (respOf : String → Nat → Except String ApiResponse)
    (asin_list : List String) : ∀ st : RunState,
    countEv isRequestEv (detailLoop respOf asin_list st).1 = asin_list.length := by
  induction asin_list with
  | nil => intro st; rfl
  | cons a rest ih =>
    intro st
    simp only [detailLoop, countEv_append, List.length_cons]
    rw [ih]
    obtain h | ⟨m, h⟩ := fetch_events_shape (respOf a) a <;>
      rw [h] <;>
      simp [countEv, isRequestEv] <;>
      omega

/-- The detail loop sleeps exactly once per ASIN (the post-request delay). -/
theorem detail_sleep_count (respOf : String → Nat → Except String ApiResponse)
    (asin_list : List String) : ∀ st : RunState,
    countEv isSleepEv (detailLoop respOf asin_list st).1 = asin_list.length := by
  induction asin_list with
  | nil => intro st; rfl
  | cons a rest ih =>
    intro st
    simp only [detailLoop, countEv_append, List.length_cons]
    rw [ih]
    obtain h | ⟨m, h⟩ := fetch_events_shape (respOf a) a <;>
      rw [h] <;>
      simp [countEv, isSleepEv] <;>
      omega

/-- C6 counterexample: in the search pipeline a keyword whose first page
already triggers the stop condition issues one HTTP request and sleeps zero
times — the break skips `time.sleep(1)`, so no delay is enforced after the
request of a page that triggers the stop condition, contradicting "a delay
after every request issued". -/
theorem c6_counterexample :
    (kwLoop respC6 "hammer" 1 max_pages true none).events = [Ev.request 1] ∧
    countEv isRequestEv (kwLoop respC6 "hammer" 1 max_pages true none).events = 1 ∧
    countEv isSleepEv (kwLoop respC6 "hammer" 1 max_pages true none).events = 0 := by
  decide

/-- In the detail loop every request is followed — before any further
request, and also when it is the last request of the run — by a sleep of
exactly `REQUEST_DELAY` time units. -/
theorem detail_delayed (respOf : String → Nat → Except String ApiResponse)
    (asin_list : List String) : ∀ st : RunState,
    delayedAfterEachRequest REQUEST_DELAY (detailLoop respOf asin_list st).1 false = true := by
  induction asin_list with
  | nil => intro st; rfl
  | cons a rest ih =>
    intro st
    simp only [detailLoop]
    obtain h | ⟨m, h⟩ := fetch_events_shape (respOf a) a <;>
      simp [delayedAfterEachRequest, h, ih]

/-- C6 amended: the detail pipeline does enforce the fixed 1-unit delay after
every request, including the last — each request is followed by a sleep of
exactly `REQUEST_DELAY = 1` before any further request (and before the run
ends), with one request and one sleep per ASIN.  In the search pipeline the
sleep sits after the break check, so a page's request is followed by a
1-unit delay exactly when that page does not trigger the stop condition:
page 3's request is still followed by the delay when only the page cap ends
the loop, while the request of a page with zero products or no next-page
indicator ends the keyword with no delay after it. -/
theorem c6_amended :
    (∀ (respOf : String → Nat → Except String ApiResponse)
       (asin_list : List String) (st : RunState),
       delayedAfterEachRequest REQUEST_DELAY (detailLoop respOf asin_list st).1 false = true ∧
       countEv isRequestEv (detailLoop respOf asin_list st).1 = asin_list.length ∧
       countEv isSleepEv (detailLoop respOf asin_list st).1 = asin_list.length) ∧
    (∀ (resp : Nat → SearchResults) (keyword : String) (fw : Bool) (fs : FileState),
       (kwLoop resp keyword 1 max_pages fw fs).events =
         if stopAt resp 1 then [Ev.request 1]
         else Ev.request 1 :: Ev.sleep 1 ::
           (if stopAt resp 2 then [Ev.request 2]
            else Ev.request 2 :: Ev.sleep 1 ::
              (if stopAt resp 3 then [Ev.request 3] else [Ev.request 3, Ev.sleep 1]))) :=
  ⟨fun respOf asin_list st =>
    ⟨detail_delayed respOf asin_list st, detail_request_count respOf asin_list st,
     detail_sleep_count respOf asin_list st⟩,
   fun resp keyword fw fs => kwLoop_events_char resp keyword fw fs⟩

/-- C5: when a response arrives with the error shape (no `detail` payload),
the normalizer produces no row: nothing is appended to the written rows, the
key is appended to the failed list, the carried message is logged (the
generic `未知错误` marker standing in when no message is present), and the
run continues with the remaining keys. -/
theorem c5_error_shape (respOf : String → Nat → Except String ApiResponse)
    (asin : String) (rest : List String) (st : RunState) (data : ApiResponse)
    (h1 : respOf asin 0 = Except.ok data) (h2 : data.detail = none) :
    detailLoop respOf (asin :: rest) st =
      (Ev.request 0 :: Ev.log (data.message.getD "未知错误") :: Ev.sleep REQUEST_DELAY ::
         (detailLoop respOf rest { st with failed_asins := st.failed_asins ++ [asin] }).1,
       (detailLoop respOf rest { st with failed_asins := st.failed_asins ++ [asin] }).2) := by
  have hf : fetch_product_data (respOf asin) asin =
      ([Ev.request 0, Ev.log (data.message.getD "未知错误")], none) := by
    simp [fetch_product_data, MAX_RETRIES, fetchLoop, h1, h2]
  simp [detailLoop, hf]

/-- Witness for C5: a one-key run against an error-shaped response logs the
carried message, writes nothing, and records the key as failed. -/
theorem c5_error_shape_witness :
    detailLoop respC5 ["B000TEST"] initState =
      ([Ev.request 0, Ev.log "Invalid API key", Ev.sleep REQUEST_DELAY],
       ⟨0, ["B000TEST"], none, []⟩) := by
  have h := c5_error_shape respC5 "B000TEST" [] initState errResponse rfl rfl
  exact h.trans (by decide)

/-- A row returned by a fetch is the 18-field `csv_row`, possibly extended
with a trailing `remaining_credits` entry. -/
theorem fetch_row_shape (respAt : Nat → Except String ApiResponse) (asin : String)
    (row : List (String × Cell)) (h : (fetch_product_data respAt asin).2 = some row) :
    ∃ product, row = csv_row asin product ∨
      ∃ c, row = csv_row asin product ++ [("remaining_credits", Cell.nat c)] := by
  cases hr : respAt 0 with
  | error e =>
    simp [fetch_product_data, MAX_RETRIES, fetchLoop, hr] at h
  | ok data =>
    cases hd : data.detail with
    | none =>
      simp [fetch_product_data, MAX_RETRIES, fetchLoop, hr, hd] at h
    | some product =>
      refine ⟨product, ?_⟩
      cases hc : data.remaining_credits with
      | none =>
        left
        simp [fetch_product_data, MAX_RETRIES, fetchLoop, hr, hd, hc] at h
        exact h.symm
      | some c =>
        right
        refine ⟨c, ?_⟩
        simp [fetch_product_data, MAX_RETRIES, fetchLoop, hr, hd, hc] at h
        exact h.symm

/-- The keys of `csv_row` are exactly `CSV_FIELDS`, in order. -/
theorem csv_row_keys (asin : String) (product : AmzProduct) :
    (csv_row asin product).map Prod.fst = CSV_FIELDS := rfl

/-- `csv_row` itself never carries a `remaining_credits` key. -/
theorem csv_row_no_rc (asin : String) (product : AmzProduct) :
    (csv_row asin product).any (fun p => p.1 == "remaining_credits") = false := by
  simp [csv_row]

/-- Deleting the trailing `remaining_credits` entry restores the
`CSV_FIELDS` key list. -/
theorem csv_row_rc_keys (asin : String) (product : AmzProduct) (c : Nat) :
    (((csv_row asin product ++ [("remaining_credits", Cell.nat c)]).filter
        (fun p => p.1 != "remaining_credits")).map Prod.fst) = CSV_FIELDS := by
  simp [csv_row, List.filter_append, List.filter]
  rfl

/-- Invariant of the detail loop: when every already-written row has exactly
the `CSV_FIELDS` keys, so does every row after processing more ASINs. -/
theorem detail_rows_keys (respOf : String → Nat → Except String ApiResponse)
    (asin_list : List String) : ∀ st : RunState,
    (∀ r ∈ st.rows, r.map Prod.fst = CSV_FIELDS) →
    ∀ r ∈ (detailLoop respOf asin_list st).2.rows, r.map Prod.fst = CSV_FIELDS := by
  induction asin_list with
  | nil =>
    intro st hst
    simpa [detailLoop] using hst
  | cons a rest ih =>
    intro st hst
    simp only [detailLoop]
    refine ih _ ?_
    cases hf : (fetch_product_data (respOf a) a).2 with
    | none => simpa using hst
    | some row =>
      obtain ⟨product, hrow | ⟨c, hrow⟩⟩ := fetch_row_shape (respOf a) a row hf
      · subst hrow
        have hany := csv_row_no_rc a product
        simp only [hany]
        intro r hr
        simp only [Bool.false_eq_true, if_false, List.mem_append, List.mem_singleton] at hr
        rcases hr with hr | rfl
        · exact hst r hr
        · exact csv_row_keys a product
      · subst hrow
        have hany : ((csv_row a product ++ [("remaining_credits", Cell.nat c)]).any
            (fun p => p.1 == "remaining_credits")) = true := by
          simp [List.any_append]
        simp only [hany, if_true]
        intro r hr
        simp only [List.mem_append, List.mem_singleton] at hr
        rcases hr with hr | rfl
        · exact hst r hr
        · exact csv_row_rc_keys a product c

/-- C7: the detail pipeline's header line is exactly the fixed `CSV_FIELDS`
schema, and every data row written during a run carries exactly those 18
fields in that order — any `remaining_credits` entry a fetched row carried
is removed before the row is written. -/
theorem c7_schema (respOf : String → Nat → Except String ApiResponse)
    (asin_list : List String) :
    (detail_main respOf asin_list).header = CSV_FIELDS ∧
    ∀ row ∈ (detail_main respOf asin_list).state.rows,
      row.map Prod.fst = CSV_FIELDS := by
  refine ⟨rfl, ?_⟩
  intro row hrow
  exact detail_rows_keys respOf (applyLimit LIMIT asin_list) initState
    (by simp [initState]) row hrow

/-- Witness for C7: a one-ASIN run whose response carries a
`remaining_credits` counter still writes a row with exactly the 18 schema
keys. -/
theorem c7_schema_witness :
    (detail_main respC7 ["A1"]).header = CSV_FIELDS ∧
    (csv_row "A1" emptyAmzProduct).map Prod.fst = CSV_FIELDS := by
  have h := c7_schema respC7 ["A1"]
  exact ⟨h.1, h.2 (csv_row "A1" emptyAmzProduct) (by decide)⟩

/-- The head of a `dropWhile` result never satisfies the dropped predicate. -/
theorem dropWhile_head_not {p : Char → Bool} (l : List Char) :
    ∀ c, (l.dropWhile p).head? = some c → p c = false := by
  intro c hc
  have h := List.head?_dropWhile_not p l
  rw [hc] at h
  exact h

/-- `dropWhile` is the identity when the head (if any) fails the predicate. -/
theorem dropWhile_eq_self_of_head {p : Char → Bool} (l : List Char)
    (h : ∀ c, l.head? = some c → p c = false) : l.dropWhile p = l := by
  cases l with
  | nil => rfl
  | cons c rest => exact List.dropWhile_cons_of_neg (by simp [h c rfl])

/-- `dropWhile` is the identity when no element satisfies the predicate. -/
theorem dropWhile_eq_self_of_all {p : Char → Bool} (l : List Char)
    (h : ∀ c ∈ l, p c = false) : l.dropWhile p = l := by
  cases l with
  | nil => rfl
  | cons c rest =>
    exact List.dropWhile_cons_of_neg (by simp [h c (List.mem_cons_self c rest)])

/-- `pyStrip` is leading `dropWhile` followed by Mathlib's `rdropWhile`. -/
theorem pyStrip_eq_rdrop (s : List Char) :
    pyStrip s = List.rdropWhile Char.isWhitespace (s.dropWhile Char.isWhitespace) := rfl

/-- Dropping trailing whitespace keeps a whitespace-free head whitespace-free,
so a second leading strip does nothing. -/
theorem rdrop_head_stable (u : List Char)
    (hu : ∀ c, u.head? = some c → c.isWhitespace = false) :
    (List.rdropWhile Char.isWhitespace u).dropWhile Char.isWhitespace =
      List.rdropWhile Char.isWhitespace u := by
  apply dropWhile_eq_self_of_head
  intro c hc
  apply hu
  obtain ⟨t, ht⟩ := List.rdropWhile_prefix (p := Char.isWhitespace) (l := u)
  rw [← ht]
  cases hcase : List.rdropWhile Char.isWhitespace u with
  | nil => rw [hcase] at hc; exact absurd hc (by simp)
  | cons x xs =>
    rw [hcase] at hc
    simp at hc
    subst hc
    rfl

/-- Python's `strip` is idempotent. -/
theorem pyStrip_idem (s : List Char) : pyStrip (pyStrip s) = pyStrip s := by
  rw [pyStrip_eq_rdrop (pyStrip s), pyStrip_eq_rdrop s]
  rw [rdrop_head_stable (s.dropWhile Char.isWhitespace) (dropWhile_head_not s)]
  exact List.rdropWhile_idempotent _ _

/-- `strip` does nothing to a string with no whitespace at all. -/
theorem pyStrip_of_no_ws (t : List Char) (h : ∀ c ∈ t, c.isWhitespace = false) :
    pyStrip t = t := by
  simp only [pyStrip]
  rw [dropWhile_eq_self_of_all t h,
    dropWhile_eq_self_of_all t.reverse (fun c hc => h c (List.mem_reverse.mp hc)),
    List.reverse_reverse]

/-- Every token `pySplitWs` produces is non-empty and whitespace-free. -/
theorem pySplitWs_tokens (s : List Char) :
    ∀ t ∈ pySplitWs s, t ≠ [] ∧ ∀ c ∈ t, c.isWhitespace = false := by
  have H : ∀ n, ∀ s : List Char, s.length ≤ n →
      ∀ t ∈ pySplitWs s, t ≠ [] ∧ ∀ c ∈ t, c.isWhitespace = false := by
    intro n
    induction n with
    | zero =>
      intro s hs t ht
      have hnil : s = [] := List.length_eq_zero.mp (Nat.le_zero.mp hs)
      subst hnil
      simp [pySplitWs] at ht
    | succ n ih =>
      intro s hs t ht
      cases s with
      | nil => simp [pySplitWs] at ht
      | cons c rest =>
        simp only [List.length_cons] at hs
        by_cases hws : c.isWhitespace = true
        · have hstep : pySplitWs (c :: rest) = pySplitWs rest := by
            simp [pySplitWs, hws]
          rw [hstep] at ht
          exact ih rest (by omega) t ht
        · have hws' : c.isWhitespace = false := by simpa using hws
          have hstep : pySplitWs (c :: rest) =
              (c :: rest.takeWhile (fun d => !d.isWhitespace)) ::
                pySplitWs (rest.dropWhile (fun d => !d.isWhitespace)) := by
            simp [pySplitWs, hws']
          rw [hstep] at ht
          rcases List.mem_cons.mp ht with rfl | ht'
          · refine ⟨by simp, ?_⟩
            intro d hd
            rcases List.mem_cons.mp hd with rfl | hd'
            · exact hws'
            · have := List.mem_takeWhile_imp hd'
              simpa using this
          · have hlen := List.IsSuffix.length_le
              (List.dropWhile_suffix (l := rest) (fun d => !d.isWhitespace))
            exact ih _ (by omega) t ht'
  exact H s.length s (Nat.le_refl _)

/-- `pySplitWs` of an all-whitespace string is empty. -/
theorem pySplitWs_all_ws (u : List Char) (h : ∀ c ∈ u, c.isWhitespace = true) :
    pySplitWs u = [] := by
  induction u with
  | nil => simp [pySplitWs]
  | cons c rest ih =>
    have hc := h c (List.mem_cons_self c rest)
    have hstep : pySplitWs (c :: rest) = pySplitWs rest := by simp [pySplitWs, hc]
    rw [hstep]
    exact ih (fun d hd => h d (List.mem_cons_of_mem c hd))

/-- Appending trailing whitespace does not change the tokens. -/
theorem pySplitWs_append_ws (t u : List Char) (hu : ∀ c ∈ u, c.isWhitespace = true) :
    pySplitWs (t ++ u) = pySplitWs t := by
  have H : ∀ n, ∀ t : List Char, t.length ≤ n → pySplitWs (t ++ u) = pySplitWs t := by
    intro n
    induction n with
    | zero =>
      intro t ht
      have hnil : t = [] := List.length_eq_zero.mp (Nat.le_zero.mp ht)
      subst hnil
      simpa [pySplitWs] using pySplitWs_all_ws u hu
    | succ n ih =>
      intro t ht
      cases t with
      | nil => simpa [pySplitWs] using pySplitWs_all_ws u hu
      | cons c rest =>
        simp only [List.length_cons] at ht
        by_cases hws : c.isWhitespace = true
        · have h1 : pySplitWs ((c :: rest) ++ u) = pySplitWs (rest ++ u) := by
            simp [pySplitWs, hws]
          have h2 : pySplitWs (c :: rest) = pySplitWs rest := by
            simp [pySplitWs, hws]
          rw [h1, h2]
          exact ih rest (by omega)
        · have hws' : c.isWhitespace = false := by simpa using hws
          have htkmem : ∀ d ∈ rest.takeWhile (fun d => !d.isWhitespace),
              (!d.isWhitespace) = true :=
            fun d hd => List.mem_takeWhile_imp (p := fun d : Char => !d.isWhitespace) hd
          have hsplit : rest.takeWhile (fun d => !d.isWhitespace) ++
              rest.dropWhile (fun d => !d.isWhitespace) = rest :=
            List.takeWhile_append_dropWhile _ _
          have hL : pySplitWs ((c :: rest) ++ u) =
              (c :: (rest ++ u).takeWhile (fun d => !d.isWhitespace)) ::
                pySplitWs ((rest ++ u).dropWhile (fun d => !d.isWhitespace)) := by
            simp [pySplitWs, hws']
          have hR : pySplitWs (c :: rest) =
              (c :: rest.takeWhile (fun d => !d.isWhitespace)) ::
                pySplitWs (rest.dropWhile (fun d => !d.isWhitespace)) := by
            simp [pySplitWs, hws']
          rw [hL, hR]
          cases hcase : rest.dropWhile (fun d => !d.isWhitespace) with
          | nil =>
            have hrest : rest.takeWhile (fun d => !d.isWhitespace) = rest := by
              rw [hcase] at hsplit
              simpa using hsplit
            have hallnws : ∀ d ∈ rest, (!d.isWhitespace) = true := by
              rw [← hrest]
              exact htkmem
            have hu_take : u.takeWhile (fun d : Char => !d.isWhitespace) = [] := by
              cases u with
              | nil => rfl
              | cons d du =>
                exact List.takeWhile_cons_of_neg
                  (by simp [hu d (List.mem_cons_self d du)])
            have hu_drop : u.dropWhile (fun d : Char => !d.isWhitespace) = u := by
              cases u with
              | nil => rfl
              | cons d du =>
                exact List.dropWhile_cons_of_neg
                  (by simp [hu d (List.mem_cons_self d du)])
            have htu : (rest ++ u).takeWhile (fun d => !d.isWhitespace) =
                rest ++ u.takeWhile (fun d => !d.isWhitespace) :=
              List.takeWhile_append_of_pos hallnws
            have hdu : (rest ++ u).dropWhile (fun d => !d.isWhitespace) =
                u.dropWhile (fun d => !d.isWhitespace) :=
              List.dropWhile_append_of_pos hallnws
            rw [htu, hdu, hu_take, hu_drop, List.append_nil, hrest]
            rw [pySplitWs_all_ws u hu]
            simp [pySplitWs]
          | cons d du =>
            have hd : (!d.isWhitespace) = false := by
              apply dropWhile_head_not (p := fun d : Char => !d.isWhitespace) rest
              rw [hcase]
              rfl
            have htu : (rest ++ u).takeWhile (fun d => !d.isWhitespace) =
                rest.takeWhile (fun d => !d.isWhitespace) := by
              conv =>
                lhs
                rw [← hsplit]
              rw [List.append_assoc, List.takeWhile_append_of_pos htkmem, hcase]
              simp only [List.cons_append]
              rw [List.takeWhile_cons_of_neg (by simp [hd])]
              simp
            have hdu : (rest ++ u).dropWhile (fun d => !d.isWhitespace) =
                rest.dropWhile (fun d => !d.isWhitespace) ++ u := by
              conv =>
                lhs
                rw [← hsplit]
              rw [List.append_assoc, List.dropWhile_append_of_pos htkmem, hcase]
              simp only [List.cons_append]
              rw [List.dropWhile_cons_of_neg (by simp [hd])]
            rw [htu, hdu, hcase]
            have hlen := List.IsSuffix.length_le
              (List.dropWhile_suffix (l := rest) (fun d => !d.isWhitespace))
            rw [hcase] at hlen
            have := ih (d :: du) (by omega)
            rw [this]
  exact H t.length t (Nat.le_refl _)

/-- Splitting a trailing-whitespace strip off a list. -/
theorem rdropWhile_append_rtakeWhile (p : Char → Bool) (l : List Char) :
    List.rdropWhile p l ++ List.rtakeWhile p l = l := by
  simp only [List.rdropWhile, List.rtakeWhile]
  rw [← List.reverse_append, List.takeWhile_append_dropWhile, List.reverse_reverse]

/-- Dropping leading whitespace does not change the tokens. -/
theorem pySplitWs_dropWhile (s : List Char) :
    pySplitWs (s.dropWhile Char.isWhitespace) = pySplitWs s := by
  induction s with
  | nil => rfl
  | cons c rest ih =>
    by_cases hws : c.isWhitespace = true
    · rw [List.dropWhile_cons_of_pos hws, ih]
      have hstep : pySplitWs (c :: rest) = pySplitWs rest := by simp [pySplitWs, hws]
      rw [hstep]
    · have hws' : c.isWhitespace = false := by simpa using hws
      rw [List.dropWhile_cons_of_neg (by simp [hws'])]

/-- Python's `strip` before `split()` is a no-op on the token list. -/
theorem pySplitWs_pyStrip (s : List Char) :
    pySplitWs (pyStrip s) = pySplitWs s := by
  rw [pyStrip_eq_rdrop s]
  have hmem : ∀ c ∈ List.rtakeWhile Char.isWhitespace (s.dropWhile Char.isWhitespace),
      c.isWhitespace = true := fun c hc => List.mem_rtakeWhile_imp hc
  calc pySplitWs (List.rdropWhile Char.isWhitespace (s.dropWhile Char.isWhitespace))
      = pySplitWs (List.rdropWhile Char.isWhitespace (s.dropWhile Char.isWhitespace) ++
          List.rtakeWhile Char.isWhitespace (s.dropWhile Char.isWhitespace)) :=
        (pySplitWs_append_ws _ _ hmem).symm
    _ = pySplitWs (s.dropWhile Char.isWhitespace) := by
        rw [rdropWhile_append_rtakeWhile]
    _ = pySplitWs s := pySplitWs_dropWhile s

/-- Filtering on the stripped form commutes with mapping the strip. -/
theorem filter_map_comm (lines : List (List Char)) :
    (lines.filter (fun line => !(pyStrip line).isEmpty)).map pyStrip =
      (lines.map pyStrip).filter (fun l => !l.isEmpty) := by
  induction lines with
  | nil => rfl
  | cons a t ih =>
    cases h : (pyStrip a).isEmpty <;>
      simp [List.filter_cons, h, ih]

/-- C8: each pipeline's input reader returns exactly the non-blank entries of
its file, in file order, trimmed: `read_keywords` is the strip-then-filter of
the lines, and the ASIN reader returns exactly the whitespace-separated
tokens of the file (the Python `strip` calls around `split()` change
nothing); no blank or untrimmed entry ever appears in either output. -/
theorem c8_readers :
    (∀ lines : List (List Char),
       read_keywords lines = (lines.map pyStrip).filter (fun l => !l.isEmpty) ∧
       ∀ k ∈ read_keywords lines, k ≠ [] ∧ pyStrip k = k) ∧
    (∀ content : List Char,
       readAsinList content = pySplitWs content ∧
       ∀ k ∈ readAsinList content, k ≠ [] ∧ pyStrip k = k) := by
  constructor
  · intro lines
    refine ⟨filter_map_comm lines, ?_⟩
    intro k hk
    simp only [read_keywords] at hk
    rcases List.mem_map.mp hk with ⟨l, hl, rfl⟩
    rcases List.mem_filter.mp hl with ⟨hmem, hcond⟩
    have hne : pyStrip l ≠ [] := by
      intro habs
      rw [habs] at hcond
      simp at hcond
    exact ⟨hne, pyStrip_idem l⟩
  · intro content
    have htok := pySplitWs_tokens (pyStrip content)
    have heq : readAsinList content = pySplitWs content := by
      simp only [readAsinList]
      have hfil : (pySplitWs (pyStrip content)).filter (fun a => !(pyStrip a).isEmpty) =
          pySplitWs (pyStrip content) := by
        apply List.filter_eq_self.mpr
        intro a ha
        have h := htok a ha
        rw [pyStrip_of_no_ws a h.2]
        cases a with
        | nil => exact absurd rfl h.1
        | cons x xs => rfl
      rw [hfil]
      have hmapid : (pySplitWs (pyStrip content)).map pyStrip =
          pySplitWs (pyStrip content) := by
        rw [List.map_congr_left (fun a ha => pyStrip_of_no_ws a (htok a ha).2)]
        simp
      rw [hmapid, pySplitWs_pyStrip]
    refine ⟨heq, ?_⟩
    intro k hk
    rw [heq] at hk
    have h := pySplitWs_tokens content k hk
    exact ⟨h.1, pyStrip_of_no_ws k h.2⟩

/-- Witness for C8 on concrete inputs: a keyword file with one padded line
and one blank line, and an ASIN file with padded whitespace-separated
tokens. -/
theorem c8_readers_witness :
    read_keywords [" hammer ".toList, "   ".toList] = ["hammer".toList] ∧
    ("hammer".toList ≠ [] ∧ pyStrip "hammer".toList = "hammer".toList) ∧
    readAsinList " B1  B2 ".toList = ["B1".toList, "B2".toList] ∧
    ("B1".toList ≠ [] ∧ pyStrip "B1".toList = "B1".toList) := by
  have hs := c8_readers.1 [" hammer ".toList, "   ".toList]
  have hd := c8_readers.2 " B1  B2 ".toList
  have heval : pySplitWs " B1  B2 ".toList = ["B1".toList, "B2".toList] := by
    simp [pySplitWs]
  have hmem : "B1".toList ∈ readAsinList " B1  B2 ".toList := by
    rw [hd.1, heval]
    simp
  refine ⟨hs.1.trans (by decide), hs.2 "hammer".toList (by decide),
    hd.1.trans heval, hd.2 "B1".toList hmem⟩
